import Mathlib

/-!
Verification of the Lua-subset parser and decode layer of the factorio_ai
repository (src/lua_parser.rs, src/recipe.rs), against its specification.

The parser is written in Rust on top of the nom combinator library.  We give a
shallow embedding:

* input is a `List Char` (the Rust code parses `&str`; the data files are
  ASCII, so byte positions and character positions coincide);
* a parser returns `PRes α`: success (remaining input and value), a
  recoverable nom `Err::Error` carrying a `VerboseError`-style trail of
  `(remaining input, label)` entries, a Rust panic (the code calls `.unwrap()`
  on a fallible float conversion), or `PRes.out`, which is exhaustion of the
  explicit recursion fuel that makes the mutually recursive grammar total in
  Lean (an artifact of the embedding: it is neither success nor failure and
  every theorem below treats it as such);
* the `data:extend` / `local` / named-function accumulator (`LuaContext` in
  the source) is threaded explicitly; exactly as in nom, the mutating closure
  of `map(parser, closure)` runs only when `parser` succeeds, so each
  alternative of `parse_toplevel` commits its table mutation only on success.

Error payloads follow nom's `VerboseError`: `from_error_kind` makes a
one-entry trail, `context`/`append` add an entry, and `alt` keeps the error of
the last alternative and appends an `Alt` entry at the alternation's input.
Theorems below rely only on the `context` labels written in the source
(`"Stmt"`, `"num"`, ...) and on the `Alt` entry, which behave this way in all
nom versions with `VerboseError`; the exact `ErrorKind` strings of the leaves
are never used.

Rust `f64` values are modelled as exact rationals (`ℚ`); the only float
operations the code performs on them are decimal-literal conversion and one
division used for `Recipe.speed`, and no claim depends on binary64 rounding.
Rust `i64` is modelled as `Int` together with the `i64::from_str` range check.
`HashMap<String, _>` is modelled as an association list with unique keys in
insertion order; `insert` overwrites the value of an existing key in place,
`remove_entry` removes it, matching the keyed (order-irrelevant) semantics of
the Rust type.
-/

set_option maxRecDepth 20000

namespace Factorio

/-! ### The dynamic value tree (lua_parser.rs lines 21-30, 621-665) -/

mutual

inductive LuaObject : Type where
  | Map : List (String × LuaObject) → LuaObject
  | Array : List LuaObject → LuaObject
  | Bool : Bool → LuaObject
  | Str : String → LuaObject
  | Int : Int → LuaObject
  | Float : ℚ → LuaObject
  | Expr : LuaExpr → LuaObject
deriving Repr

inductive LuaExpr : Type where
  | Var : List String → LuaExpr
  | Literal : LuaObject → LuaExpr
  | Funcall : List String → List LuaExpr → LuaExpr
  | Fundef : LuaFunction → LuaExpr
  | Unop : UnopKind → LuaExpr → LuaExpr
  | Binop : BinopKind → LuaExpr → LuaExpr → LuaExpr
deriving Repr

inductive UnopKind : Type where
  | Octothorpe : UnopKind
deriving Repr

inductive BinopKind : Type where
  | Plus | Minus | Times | Divide | DotDot | EqEq | TildeEq : BinopKind
deriving Repr

inductive LValue : Type where
  | Dotted : List String → LValue
  | Subscript : LValue → LuaExpr → LValue
deriving Repr

inductive LuaStmt : Type where
  | Return : LuaExpr → LuaStmt
  | Assign : LValue → LuaExpr → LuaStmt
  | IfThen : LuaExpr → List LuaStmt → List LuaStmt → LuaStmt
  | Expr : LuaExpr → LuaStmt
deriving Repr

inductive LuaFunction : Type where
  | mk : (args : List String) → (body : List LuaStmt) → LuaFunction
deriving Repr

end

/-! ### simplify (lua_parser.rs lines 32-45) -/

mutual

/-- `LuaObject::simplify`: rewrite every `Expr(Literal(x))` node to
(the simplification of) `x`, recursing into `Map` and `Array` contents;
other variants, and `Expr` nodes holding non-literal expressions, are kept. -/
def LuaObject.simplify : LuaObject → LuaObject
  | .Map m => .Map (simplifyFields m)
  | .Array a => .Array (simplifyList a)
  | .Expr x =>
    match x with
    | .Literal y => y.simplify
    | _ => .Expr x
  | v => v

/-- The `map.into_iter().map(|(k, v)| (k, v.simplify())).collect()` of the
`Map` arm of `simplify`, as a recursion the termination checker accepts. -/
def simplifyFields : List (String × LuaObject) → List (String × LuaObject)
  | [] => []
  | (k, v) :: rest => (k, v.simplify) :: simplifyFields rest

/-- The `array.into_iter().map(|x| x.simplify()).collect()` of the `Array`
arm of `simplify`. -/
def simplifyList : List LuaObject → List LuaObject
  | [] => []
  | v :: rest => v.simplify :: simplifyList rest

end

/-! ### Association-list model of `HashMap<String, α>` -/

/-- `HashMap::insert`: overwrite the value at an existing key in place,
otherwise add the binding. -/
def hmInsert {α : Type} : List (String × α) → String → α → List (String × α)
  | [], k, v => [(k, v)]
  | (k', v') :: rest, k, v =>
    if k' = k then (k', v) :: rest else (k', v') :: hmInsert rest k v

/-- `HashMap::get` (used only in statements about bindings). -/
def hmLookup {α : Type} : List (String × α) → String → Option α
  | [], _ => none
  | (k', v') :: rest, k => if k' = k then some v' else hmLookup rest k

/-- `HashMap::remove_entry` (the decode layer's "take field" helper): the
removed value together with the map without that binding, or `none` when the
key is absent. -/
def hmRemove {α : Type} : List (String × α) → String → Option (α × List (String × α))
  | [], _ => none
  | (k', v') :: rest, k =>
    if k' = k then some (v', rest)
    else (hmRemove rest k).map (fun p => (p.1, (k', v') :: p.2))

/-- `fields.into_iter().collect::<HashMap<_, _>>()`: insert in list order,
so a repeated key keeps the value of its last occurrence. -/
def mapCollect {α : Type} (l : List (String × α)) : List (String × α) :=
  l.foldl (fun acc p => hmInsert acc p.1 p.2) []

/-! ### nom result and error model -/

/-- A `VerboseError`-style trail: `(remaining input at the error, label)`,
innermost first. -/
structure PErr : Type where
  trail : List (List Char × String)
deriving DecidableEq, Repr

/-- Outcome of a parser: `ok` and `err` mirror nom's `Ok` / `Err::Error`;
`panic` is a Rust panic; `out` is fuel exhaustion of the embedding. -/
inductive PRes (α : Type) : Type where
  | ok (rest : List Char) (val : α)
  | err (e : PErr)
  | panic
  | out
deriving Repr

/-- `from_error_kind`. -/
def mkErr (input : List Char) (kind : String) : PErr := ⟨[(input, kind)]⟩

/-- `add_context` / `append`: push an outer entry onto the trail. -/
def addCtx (input : List Char) (label : String) (e : PErr) : PErr :=
  ⟨e.trail ++ [(input, label)]⟩

/-- Sequencing with `?`: success continues, anything else propagates. -/
def pseq {α β : Type} (r : PRes α) (f : List Char → α → PRes β) : PRes β :=
  match r with
  | .ok rest a => f rest a
  | .err e => .err e
  | .panic => .panic
  | .out => .out

/-- nom `map` on a result. -/
def pmap {α β : Type} (r : PRes α) (f : α → β) : PRes β :=
  match r with
  | .ok rest a => .ok rest (f a)
  | .err e => .err e
  | .panic => .panic
  | .out => .out

/-- nom `context(label, parser)` applied to the parser's result at `input`. -/
def pcontext {α : Type} (label : String) (input : List Char) (r : PRes α) : PRes α :=
  match r with
  | .err e => .err (addCtx input label e)
  | r => r

/-- nom `opt` on a result computed at `input`. -/
def popt {α : Type} (input : List Char) (r : PRes α) : PRes (Option α) :=
  match r with
  | .ok rest a => .ok rest (some a)
  | .err _ => .ok input none
  | .panic => .panic
  | .out => .out

/-- nom `alt`: try the alternatives in order; `Err::Error` moves on, keeping
the newest error (`VerboseError::or` returns its second argument); when all
fail, append an `Alt` entry at the alternation's input. -/
def altGo {α : Type} (input : List Char) : PErr → List (Unit → PRes α) → PRes α
  | e, [] => .err (addCtx input "Alt" e)
  | _, p :: ps =>
    match p () with
    | .err e' => altGo input e' ps
    | r => r

/-- nom `alt` over a non-empty list of alternatives. -/
def palt {α : Type} (input : List Char) (ps : List (Unit → PRes α)) : PRes α :=
  altGo input ⟨[]⟩ ps

/-- nom `tag`. -/
def ptag (t : List Char) (input : List Char) : PRes (List Char) :=
  if t.isPrefixOf input then .ok (input.drop t.length) t
  else .err (mkErr input "Tag")

/-- nom `is_a` / `is_not` / `alpha1` / `alphanumeric1` share this shape: the
longest (at least one character) run satisfying `p`. -/
def take1While (p : Char → Bool) (kind : String) (input : List Char) : PRes (List Char) :=
  let run := input.takeWhile p
  if run.isEmpty then .err (mkErr input kind) else .ok (input.drop run.length) run

/-- nom `recognize`: replace a parser's value by its consumed slice. -/
def precognize {α : Type} (input : List Char) (r : PRes α) : PRes (List Char) :=
  match r with
  | .ok rest _ => .ok rest (input.take (input.length - rest.length))
  | .err e => .err e
  | .panic => .panic
  | .out => .out

/-- nom `many0` loop.  The fuel argument is an upper bound on the number of
iterations; every caller passes `input.length + 1`, which suffices because an
iteration that continues consumes at least one character (a zero-length match
returns the `Many0` error, as in nom). -/
def many0Go {α : Type} (p : List Char → PRes α) :
    Nat → List Char → List α → PRes (List α)
  | 0, _, _ => .out
  | f+1, input, acc =>
    match p input with
    | .ok rest a =>
      if rest.length = input.length then .err (mkErr input "Many0")
      else many0Go p f rest (acc ++ [a])
    | .err _ => .ok input acc
    | .panic => .panic
    | .out => .out

def many0 {α : Type} (p : List Char → PRes α) (fuel : Nat) (input : List Char) :
    PRes (List α) :=
  many0Go p fuel input []

/-- nom `many1`: the first match is mandatory; then loop like `many0`. -/
def many1 {α : Type} (p : List Char → PRes α) (fuel : Nat) (input : List Char) :
    PRes (List α) :=
  match p input with
  | .ok rest a =>
    if rest.length = input.length then .err (mkErr input "Many1")
    else many0Go p fuel rest [a]
  | .err e => .err (addCtx input "Many1" e)
  | .panic => .panic
  | .out => .out

/-- nom `separated_list0`/`separated_list1` loop: try `sep`, then `p`; if
either fails, stop, resetting to before the separator.  Fuel as in `many0Go`. -/
def sepListGo {α β : Type} (sep : List Char → PRes β) (p : List Char → PRes α) :
    Nat → List Char → List α → PRes (List α)
  | 0, _, _ => .out
  | f+1, input, acc =>
    match sep input with
    | .err _ => .ok input acc
    | .panic => .panic
    | .out => .out
    | .ok rest1 _ =>
      match p rest1 with
      | .err _ => .ok input acc
      | .panic => .panic
      | .out => .out
      | .ok rest2 a =>
        if rest2.length = input.length then .err (mkErr input "SeparatedList")
        else sepListGo sep p f rest2 (acc ++ [a])

def sepList0 {α β : Type} (sep : List Char → PRes β) (p : List Char → PRes α)
    (fuel : Nat) (input : List Char) : PRes (List α) :=
  match p input with
  | .ok rest a => sepListGo sep p fuel rest [a]
  | .err _ => .ok input []
  | .panic => .panic
  | .out => .out

def sepList1 {α β : Type} (sep : List Char → PRes β) (p : List Char → PRes α)
    (fuel : Nat) (input : List Char) : PRes (List α) :=
  match p input with
  | .ok rest a => sepListGo sep p fuel rest [a]
  | .err e => .err e
  | .panic => .panic
  | .out => .out

/-! ### Character classes and numeric conversions -/

/-- nom `multispace0` character class. -/
def isMultispaceChar (c : Char) : Bool :=
  c = ' ' || c = '\t' || c = '\r' || c = '\n'

def isAsciiAlphaChar (c : Char) : Bool :=
  ('a' ≤ c && c ≤ 'z') || ('A' ≤ c && c ≤ 'Z')

def isAsciiDigitChar (c : Char) : Bool :=
  '0' ≤ c && c ≤ '9'

def isAsciiAlphanumChar (c : Char) : Bool :=
  isAsciiAlphaChar c || isAsciiDigitChar c

/-- The `is_a` class of `parse_num`: `"-0123456789."`. -/
def isNumRunChar (c : Char) : Bool :=
  c = '-' || c = '.' || isAsciiDigitChar c

def digitsToNat (l : List Char) : Nat :=
  l.foldl (fun acc c => acc * 10 + (c.toNat - '0'.toNat)) 0

/-- `i64::from_str`: an optional sign, then one or more ASCII digits making up
the whole string, with the value inside the `i64` range. -/
def i64FromStr (s : List Char) : Option Int :=
  let (sgn, digits) : Int × List Char :=
    match s with
    | '-' :: r => (-1, r)
    | '+' :: r => (1, r)
    | r => (1, r)
  if digits.isEmpty then none
  else if !digits.all isAsciiDigitChar then none
  else
    let v : Int := sgn * (digitsToNat digits : Int)
    if -(2 ^ 63) ≤ v ∧ v ≤ 2 ^ 63 - 1 then some v else none

/-- `f64::from_str` restricted to its numeric grammar: an optional sign, a
mantissa (`digits [. digits*]` or `. digits`), and an optional exponent, all
consuming the whole string.  The special forms `inf`/`infinity`/`nan` are
omitted: the only caller passes a string of characters from `-0123456789.`.
The value is the exact decimal rational (binary64 rounding is not modelled;
no claim below depends on the numeric value of a float). -/
def f64FromStr (s : List Char) : Option ℚ :=
  let (sgn, r0) : ℚ × List Char :=
    match s with
    | '-' :: r => (-1, r)
    | '+' :: r => (1, r)
    | r => (1, r)
  let ip := r0.takeWhile isAsciiDigitChar
  let r1 := r0.drop ip.length
  let (dotted, fp, r2) : Bool × List Char × List Char :=
    match r1 with
    | '.' :: r => (true, r.takeWhile isAsciiDigitChar, r.drop (r.takeWhile isAsciiDigitChar).length)
    | _ => (false, [], r1)
  if ip.isEmpty && (!dotted || fp.isEmpty) then none
  else
    let mant : ℚ := (digitsToNat ip : ℚ) + (digitsToNat fp : ℚ) / ((10 : ℚ) ^ fp.length)
    match r2 with
    | [] => some (sgn * mant)
    | 'e' :: r3 | 'E' :: r3 =>
      let (esgn, r4) : Int × List Char :=
        match r3 with
        | '-' :: r => (-1, r)
        | '+' :: r => (1, r)
        | r => (1, r)
      if r4.isEmpty || !r4.all isAsciiDigitChar then none
      else some (sgn * mant * (10 : ℚ) ^ (esgn * (digitsToNat r4 : Int)))
    | _ => none

/-! ### The lexical skipper (lua_parser.rs lines 182-201) -/

/-- The body of `whitespace`'s loop: `multispace0`, then
`opt(tuple((tag("--"), is_not("\r\n"))))`; stop (returning the input as it
was at the top of the iteration) when an iteration consumes nothing.  Fuel
bounds the iteration count; `whitespace` passes `input.length + 1`, enough
because a continuing iteration consumes at least one character. -/
def whitespaceGo : Nat → List Char → List Char
  | 0, input => input
  | f+1, input =>
    let i0 := input.dropWhile isMultispaceChar
    let i1 :=
      match i0 with
      | '-' :: '-' :: rest =>
        let body := rest.takeWhile (fun c => !(c = '\r' || c = '\n'))
        if body.isEmpty then i0 else rest.drop body.length
      | _ => i0
    if i1.length = input.length then input else whitespaceGo f i1

/-- `whitespace`: consume blank space and `--` line comments up to a fixed
point.  It never fails, so it is modelled as a total skip function. -/
def whitespace (input : List Char) : List Char :=
  whitespaceGo (input.length + 1) input

/-- `commaspace`: a `,` then the skipper. -/
def commaspace (input : List Char) : PRes Unit :=
  pseq (ptag ",".data input) fun rest _ => .ok (whitespace rest) ()

/-! ### Leaf grammar rules (lua_parser.rs lines 203-335, 451-478, 571-584) -/

/-- `parse_bool`. -/
def parse_bool (input : List Char) : PRes LuaObject :=
  pseq (palt input [
      fun _ => pmap (ptag "true".data input) (fun _ => LuaObject.Bool true),
      fun _ => pmap (ptag "false".data input) (fun _ => LuaObject.Bool false)])
    fun rest ret => .ok (whitespace rest) ret

/-- `parse_str`: `delimited(tag("\""), recognize(many0(is_not("\"\\"))), tag("\""))`. -/
def parse_str (input : List Char) : PRes LuaObject :=
  pseq (ptag "\"".data input) fun r1 _ =>
  pseq (precognize r1
      (many0 (take1While (fun c => !(c = '"' || c = '\\')) "IsNot") (r1.length + 1) r1))
    fun r2 s =>
  pseq (ptag "\"".data r2) fun r3 _ =>
  .ok (whitespace r3) (LuaObject.Str (String.mk s))

/-- `parse_num`: recognize the longest run over `-0123456789.`, try
`i64::from_str`, fall back to `f64::from_str(s).unwrap()` — the `unwrap`
panics when the float conversion fails too. -/
def parse_num (input : List Char) : PRes LuaObject :=
  pseq (precognize input (many1 (take1While isNumRunChar "IsA") (input.length + 1) input))
    fun rest s =>
  match i64FromStr s with
  | some n => .ok (whitespace rest) (LuaObject.Int n)
  | none =>
    match f64FromStr s with
    | some q => .ok (whitespace rest) (LuaObject.Float q)
    | none => .panic

def reservedWords : List String :=
  ["return", "true", "false", "if", "then", "else", "end"]

/-- The `recognize(pair(alt((alpha1, tag("_"))), many0(alt((alphanumeric1,
tag("_"))))))` token recognizer of `parse_identifier`. -/
def identRecognizer (input : List Char) : PRes (List Char) :=
  precognize input
    (pseq (palt input [
        fun _ => take1While isAsciiAlphaChar "Alpha" input,
        fun _ => ptag "_".data input])
      fun r1 _ =>
        many0 (fun i => palt i [
            fun _ => take1While isAsciiAlphanumChar "AlphaNumeric" i,
            fun _ => ptag "_".data i])
          (r1.length + 1) r1)

/-- `parse_identifier`: the token recognizer, the skipper, then rejection of
the reserved words (the error is issued at the post-skip input, as in the
source where `input` has been shadowed). -/
def parse_identifier (input : List Char) : PRes String :=
  pseq (identRecognizer input) fun rest identChars =>
  let rest' := whitespace rest
  let ident := String.mk identChars
  if ident ∈ reservedWords then .err (mkErr rest' "Satisfy")
  else .ok rest' ident

/-- `parse_namespaced`: `separated_list1(tag("."), parse_identifier)` then
the skipper. -/
def parse_namespaced (input : List Char) : PRes (List String) :=
  pseq (sepList1 (ptag ".".data) parse_identifier (input.length + 1) input)
    fun rest names => .ok (whitespace rest) names

/-- `parse_unopkind`. -/
def parse_unopkind (input : List Char) : PRes UnopKind :=
  pmap (ptag "#".data input) (fun _ => UnopKind.Octothorpe)

/-- `parse_binopkind`. -/
def parse_binopkind (input : List Char) : PRes BinopKind :=
  palt input [
    fun _ => pmap (ptag "+".data input) (fun _ => BinopKind.Plus),
    fun _ => pmap (ptag "-".data input) (fun _ => BinopKind.Minus),
    fun _ => pmap (ptag "*".data input) (fun _ => BinopKind.Times),
    fun _ => pmap (ptag "/".data input) (fun _ => BinopKind.Divide),
    fun _ => pmap (ptag "..".data input) (fun _ => BinopKind.DotDot),
    fun _ => pmap (ptag "==".data input) (fun _ => BinopKind.EqEq),
    fun _ => pmap (ptag "~=".data input) (fun _ => BinopKind.TildeEq)]

/-- First index at which `pat` occurs as a contiguous sublist
(`str::find` on a literal pattern). -/
def findSubIdx (pat : List Char) : List Char → Option Nat
  | [] => if pat.isEmpty then some 0 else none
  | c :: rest =>
    if pat.isPrefixOf (c :: rest) then some 0
    else (findSubIdx pat rest).map (· + 1)

/-- `parse_unhandled_body`: the `take_until("end")` arm is disabled behind
`if false` in the source; the live arm is an immediate `Satisfy` error. -/
def parse_unhandled_body (input : List Char) : PRes LuaStmt :=
  if false then
    match findSubIdx "end".data input with
    | some idx =>
      .ok (input.drop idx)
        (LuaStmt.Return (LuaExpr.Literal (LuaObject.Str (String.mk (input.take idx)))))
    | none => .err (mkErr input "TakeUntil")
  else .err (mkErr input "Satisfy")

/-- `parse_function`, parameterized over the name-position parser `fp`:
`function <fp> ( identifier,* ) (stmt+ | unhandled-body) end`.  In the source
the body parser is `parse_stmt` itself; here it is the extra parameter
`stmtP`, which every caller instantiates with `parse_stmt` at its own fuel,
keeping this higher-order, type-polymorphic rule outside the fuelled mutual
block below. -/
def parse_function {T : Type} (stmtP : List Char → PRes LuaStmt)
    (fp : List Char → PRes T) (input : List Char) : PRes (T × LuaFunction) :=
  pseq (ptag "function".data input) fun r1 _ =>
  let r1' := whitespace r1
  pseq (fp r1') fun r2 name =>
  pseq (ptag "(".data r2) fun r3 _ =>
  let r3' := whitespace r3
  pseq (sepList0 commaspace parse_identifier (r3'.length + 1) r3') fun r4 args =>
  pseq (ptag ")".data r4) fun r5 _ =>
  let r5' := whitespace r5
  pseq (palt r5' [
      fun _ => many1 stmtP (r5'.length + 1) r5',
      fun _ => pmap (parse_unhandled_body r5') (fun x => [x])])
    fun r6 body =>
  pseq (ptag "end".data r6) fun r7 _ =>
  .ok (whitespace r7) (name, LuaFunction.mk args body)

/-! ### The mutually recursive grammar (lua_parser.rs lines 224-619)

Every function takes a fuel argument that strictly decreases on every call
between members of the block, making the Rust functions' mutual recursion
total; with fuel `0` the result is the embedding artifact `PRes.out`.
Calls to the leaf rules above are not fuelled. -/

mutual

/-- `parse_subscript`: find the first `[`, parse the text before it as an
lvalue, resume at the position where the lvalue parse stopped, then
`[ expr ]` and the skipper.  Indices are character positions (byte positions
in the Rust source; identical on ASCII input). -/
def parse_subscript : Nat → List Char → PRes (LValue × LuaExpr)
  | 0, _ => .out
  | f+1, input =>
    match findSubIdx "[".data input with
    | some idx =>
      pseq (parse_lvalue f (input.take idx)) fun pre lv =>
      pseq (ptag "[".data (input.drop (idx - pre.length))) fun r1 _ =>
      pseq (parse_expr f r1) fun r2 e =>
      pseq (ptag "]".data r2) fun r3 _ =>
      .ok (whitespace r3) (lv, e)
    | none => .err (mkErr input "Satisfy")
  termination_by structural fuel _ => fuel


/-- `parse_lvalue`. -/
def parse_lvalue : Nat → List Char → PRes LValue
  | 0, _ => .out
  | f+1, input =>
    palt input [
      fun _ => pmap (parse_subscript f input) (fun xy => LValue.Subscript xy.1 xy.2),
      fun _ => pmap (parse_namespaced input) LValue.Dotted]
  termination_by structural fuel _ => fuel


/-- `parse_object`: the value grammar's alternation, in source order. -/
def parse_object : Nat → List Char → PRes LuaObject
  | 0, _ => .out
  | f+1, input =>
    palt input [
      fun _ => pcontext "num" input (parse_num input),
      fun _ => pcontext "bool" input (parse_bool input),
      fun _ => pcontext "str" input (parse_str input),
      fun _ => pcontext "array" input (parse_array f input),
      fun _ => pcontext "map" input (parse_map f input),
      fun _ => pmap (parse_namespaced input) (fun t => LuaObject.Expr (LuaExpr.Var t))]
  termination_by structural fuel _ => fuel


/-- `parse_field`: `identifier = (expr-as-Expr | object)`. -/
def parse_field : Nat → List Char → PRes (String × LuaObject)
  | 0, _ => .out
  | f+1, input =>
    pseq (parse_identifier input) fun r1 ident =>
    let r1' := whitespace r1
    pseq (ptag "=".data r1') fun r2 _ =>
    let r2' := whitespace r2
    pseq (palt r2' [
        fun _ => pmap (parse_expr f r2') (fun e => LuaObject.Expr e),
        fun _ => parse_object f r2'])
      fun r3 rhs =>
    .ok r3 (ident, rhs)
  termination_by structural fuel _ => fuel


/-- `parse_assign`: `lvalue = expr`. -/
def parse_assign : Nat → List Char → PRes LuaStmt
  | 0, _ => .out
  | f+1, input =>
    pseq (parse_lvalue f input) fun r1 lv =>
    let r1' := whitespace r1
    pseq (ptag "=".data r1') fun r2 _ =>
    let r2' := whitespace r2
    pseq (parse_expr f r2') fun r3 rhs =>
    .ok r3 (LuaStmt.Assign lv rhs)
  termination_by structural fuel _ => fuel


/-- `parse_map`: `{ field,* ,? }`, fields collected into a `HashMap`. -/
def parse_map : Nat → List Char → PRes LuaObject
  | 0, _ => .out
  | f+1, input =>
    pseq (ptag "\x7b".data input) fun r1 _ =>
    let r1' := whitespace r1
    pseq (sepList0 commaspace (parse_field f) (r1'.length + 1) r1') fun r2 fields =>
    let r2' := whitespace r2
    pseq (popt r2' (commaspace r2')) fun r3 _ =>
    pseq (ptag "\x7d".data r3) fun r4 _ =>
    .ok (whitespace r4) (LuaObject.Map (mapCollect fields))
  termination_by structural fuel _ => fuel


/-- `parse_array`: `{ expr,+ ,? }`, every element wrapped as
`LuaObject::Expr`. -/
def parse_array : Nat → List Char → PRes LuaObject
  | 0, _ => .out
  | f+1, input =>
    pseq (ptag "\x7b".data input) fun r1 _ =>
    let r1' := whitespace r1
    pseq (sepList1 commaspace
        (fun i => pmap (parse_expr f i) (fun e => LuaObject.Expr e))
        (r1'.length + 1) r1')
      fun r2 objects =>
    let r2' := whitespace r2
    pseq (popt r2' (commaspace r2')) fun r3 _ =>
    pseq (ptag "\x7d".data r3) fun r4 _ =>
    .ok (whitespace r4) (LuaObject.Array objects)
  termination_by structural fuel _ => fuel


/-- `parse_data_extend`: `data:extend( object )`. -/
def parse_data_extend : Nat → List Char → PRes LuaObject
  | 0, _ => .out
  | f+1, input =>
    pseq (ptag "data:extend(".data input) fun r1 _ =>
    let r1' := whitespace r1
    pseq (parse_object f r1') fun r2 obj =>
    let r2' := whitespace r2
    pseq (ptag ")".data r2') fun r3 _ =>
    .ok (whitespace r3) obj


/-- `parse_local`: `local identifier = expr`. -/
def parse_local : Nat → List Char → PRes (String × LuaExpr)
  | 0, _ => .out
  | f+1, input =>
    pseq (ptag "local".data input) fun r1 _ =>
    let r1' := whitespace r1
    pseq (parse_identifier r1') fun r2 name =>
    let r2' := whitespace r2
    pseq (ptag "=".data r2') fun r3 _ =>
    let r3' := whitespace r3
    pseq (parse_expr f r3') fun r4 e =>
    .ok (whitespace r4) (name, e)
  termination_by structural fuel _ => fuel


/-- `parse_funcall`: `namespaced ( expr,* )`. -/
def parse_funcall : Nat → List Char → PRes LuaExpr
  | 0, _ => .out
  | f+1, input =>
    pseq (parse_namespaced input) fun r1 names =>
    let r1' := whitespace r1
    pseq (ptag "(".data r1') fun r2 _ =>
    let r2' := whitespace r2
    pseq (sepList0 commaspace (parse_expr f) (r2'.length + 1) r2') fun r3 args =>
    pseq (ptag ")".data r3) fun r4 _ =>
    .ok (whitespace r4) (LuaExpr.Funcall names args)
  termination_by structural fuel _ => fuel


/-- `parse_return`. -/
def parse_return : Nat → List Char → PRes LuaStmt
  | 0, _ => .out
  | f+1, input =>
    pseq (ptag "return".data input) fun r1 _ =>
    let r1' := whitespace r1
    pseq (parse_expr f r1') fun r2 e =>
    .ok (whitespace r2) (LuaStmt.Return e)
  termination_by structural fuel _ => fuel


/-- `parse_unop`: `# expr`. -/
def parse_unop : Nat → List Char → PRes LuaExpr
  | 0, _ => .out
  | f+1, input =>
    pseq (parse_unopkind input) fun r1 op =>
    let r1' := whitespace r1
    pseq (parse_expr f r1') fun r2 e =>
    .ok r2 (LuaExpr.Unop op e)
  termination_by structural fuel _ => fuel


/-- `parse_binop`: a value literal as left operand, one operator, then the
whole remainder as one expression for the right operand. -/
def parse_binop : Nat → List Char → PRes LuaExpr
  | 0, _ => .out
  | f+1, input =>
    pseq (parse_object f input) fun r1 lhs =>
    pseq (parse_binopkind r1) fun r2 op =>
    let r2' := whitespace r2
    pseq (parse_expr f r2') fun r3 rhs =>
    .ok r3 (LuaExpr.Binop op (LuaExpr.Literal lhs) rhs)
  termination_by structural fuel _ => fuel


/-- `parse_expr`: the expression grammar's alternation, in source order. -/
def parse_expr : Nat → List Char → PRes LuaExpr
  | 0, _ => .out
  | f+1, input =>
    palt input [
      fun _ => pmap (parse_anon_function f input) (fun fn => LuaExpr.Fundef fn),
      fun _ => parse_funcall f input,
      fun _ => parse_binop f input,
      fun _ => parse_unop f input,
      fun _ =>
        pseq (ptag "(".data input) fun r1 _ =>
        let r1' := whitespace r1
        pseq (parse_expr f r1') fun r2 e =>
        pseq (ptag ")".data r2) fun r3 _ =>
        .ok r3 e,
      fun _ => pmap (parse_object f input) LuaExpr.Literal]
  termination_by structural fuel _ => fuel


/-- `parse_ifthen`: `if expr then stmt+ (else stmt+)? end`. -/
def parse_ifthen : Nat → List Char → PRes LuaStmt
  | 0, _ => .out
  | f+1, input =>
    pseq (ptag "if".data input) fun r1 _ =>
    let r1' := whitespace r1
    pseq (parse_expr f r1') fun r2 cond =>
    pseq (ptag "then".data r2) fun r3 _ =>
    let r3' := whitespace r3
    pseq (many1 (parse_stmt f) (r3'.length + 1) r3') fun r4 thenB =>
    pseq (palt r4 [
        fun _ =>
          pseq (ptag "else".data r4) fun r5 _ =>
          let r5' := whitespace r5
          pseq (many1 (parse_stmt f) (r5'.length + 1) r5') fun r6 elseB =>
          pseq (ptag "end".data r6) fun r7 _ =>
          .ok r7 elseB,
        fun _ => pmap (ptag "end".data r4) (fun _ => ([] : List LuaStmt))])
      fun r8 elseB =>
    .ok (whitespace r8) (LuaStmt.IfThen cond thenB elseB)
  termination_by structural fuel _ => fuel


/-- `parse_stmt`: the statement alternation under `context("Stmt", _)`. -/
def parse_stmt : Nat → List Char → PRes LuaStmt
  | 0, _ => .out
  | f+1, input =>
    pcontext "Stmt" input (palt input [
      fun _ => parse_return f input,
      fun _ => parse_assign f input,
      fun _ => pmap (parse_local f input)
        (fun ne => LuaStmt.Assign (LValue.Dotted [ne.1]) ne.2),
      fun _ => parse_ifthen f input,
      fun _ => pmap (parse_expr f input) LuaStmt.Expr])
  termination_by structural fuel _ => fuel



/-- `parse_named_function`: the name position parses and keeps an identifier
(with trailing skip). -/
def parse_named_function : Nat → List Char → PRes (String × LuaFunction)
  | 0, _ => .out
  | f+1, input =>
    parse_function (parse_stmt f)
      (fun i => pseq (parse_identifier i) fun r id => .ok (whitespace r) id)
      input


/-- `parse_anon_function`: the name position consumes nothing. -/
def parse_anon_function : Nat → List Char → PRes LuaFunction
  | 0, _ => .out
  | f+1, input =>
    pmap (parse_function (parse_stmt f) (fun i => .ok i ()) input) (fun t => t.2)
  termination_by structural fuel _ => fuel
end

/-! ### The top-level accumulator (lua_parser.rs lines 667-717) -/

/-- `LuaContext`: the binding table, the function table, and the ordered
registration list. -/
structure LuaContext : Type where
  locals : List (String × LuaExpr)
  functions : List (String × LuaFunction)
  data_extends : List LuaObject
deriving Repr

/-- `LuaContext::new`. -/
def LuaContext.new : LuaContext := ⟨[], [], []⟩

/-- `LuaContext::parse_toplevel`: `alt` over the registration call, a `local`
binding, a named function definition, and a bare statement.  As in nom, the
table-mutating closure of each `map(...)` alternative runs only when that
alternative's parser has succeeded, so the returned context is updated by at
most the one alternative that succeeds and is untouched when the whole
alternation fails. -/
def parse_toplevel : Nat → LuaContext → List Char → LuaContext × PRes Unit
  | 0, ctx, _ => (ctx, .out)
  | f+1, ctx, input =>
    match parse_data_extend f input with
    | .ok rest obj => ({ ctx with data_extends := ctx.data_extends ++ [obj] }, .ok rest ())
    | .panic => (ctx, .panic)
    | .out => (ctx, .out)
    | .err _ =>
    match parse_local f input with
    | .ok rest ne => ({ ctx with locals := hmInsert ctx.locals ne.1 ne.2 }, .ok rest ())
    | .panic => (ctx, .panic)
    | .out => (ctx, .out)
    | .err _ =>
    match parse_named_function f input with
    | .ok rest nf => ({ ctx with functions := hmInsert ctx.functions nf.1 nf.2 }, .ok rest ())
    | .panic => (ctx, .panic)
    | .out => (ctx, .out)
    | .err _ =>
    match parse_stmt f input with
    | .ok rest _ => (ctx, .ok rest ())
    | .panic => (ctx, .panic)
    | .out => (ctx, .out)
    | .err e => (ctx, .err (addCtx input "Alt" e))

/-- `LuaContext::parse_all`: loop `parse_toplevel` over the remaining input
(the emptiness test runs after each call, as in the source, so the empty file
also reaches `parse_toplevel` once); the `?` makes any failure fatal for the
whole pass.  The fuel, decremented once per iteration, also feeds each
`parse_toplevel` call. -/
def parse_all : Nat → LuaContext → List Char → LuaContext × PRes Unit
  | 0, ctx, _ => (ctx, .out)
  | f+1, ctx, input =>
    match parse_toplevel f ctx input with
    | (ctx', .ok rest ()) =>
      if rest.isEmpty then (ctx', .ok rest ()) else parse_all f ctx' rest
    | (ctx', r) => (ctx', r)

/-! ### The decode layer (lua_parser.rs lines 47-180, recipe.rs) -/

/-- `TryFrom<LuaObject> for bool`. -/
def luaToBool : LuaObject → Except String Bool
  | .Bool b => .ok b
  | _ => .error "Not a Bool"

/-- `TryFrom<LuaObject> for String`. -/
def luaToString : LuaObject → Except String String
  | .Str s => .ok s
  | _ => .error "Not a Str"

/-- `TryFrom<LuaObject> for i64`. -/
def luaToI64 : LuaObject → Except String Int
  | .Int i => .ok i
  | _ => .error "Not a Int"

/-- `TryFrom<LuaObject> for f64`: an `Int` is accepted and promoted. -/
def luaToF64 : LuaObject → Except String ℚ
  | .Float q => .ok q
  | .Int i => .ok (i : ℚ)
  | _ => .error "Not a Float"

/-- The element loop of `TryFrom<LuaObject> for Vec<T>`, with the running
index used in error messages. -/
def vecConvGo {α : Type} (elem : LuaObject → Except String α) :
    Nat → List LuaObject → Except String (List α)
  | _, [] => .ok []
  | idx, x :: rest =>
    match elem x with
    | .error e => .error ("Could not convert child " ++ toString idx ++ ": " ++ e)
    | .ok a => (vecConvGo elem (idx + 1) rest).map (fun l => a :: l)

/-- `TryFrom<LuaObject> for Vec<T>`, parameterized by the element conversion
(the `T: TryFrom<LuaObject>` bound). -/
def vecTryFrom {α : Type} (elem : LuaObject → Except String α) :
    LuaObject → Except String (List α)
  | .Array a => vecConvGo elem 0 a
  | _ => .error "Not an Array"

/-- The entry loop of `TryFrom<LuaObject> for HashMap<String, T>`. -/
def hashMapConvGo {α : Type} (elem : LuaObject → Except String α) :
    List (String × LuaObject) → Except String (List (String × α))
  | [] => .ok []
  | (k, v) :: rest =>
    match elem v with
    | .error e => .error ("Could not convert child '" ++ k ++ "': " ++ e)
    | .ok a => (hashMapConvGo elem rest).map (fun l => (k, a) :: l)

/-- `TryFrom<LuaObject> for HashMap<String, T>`. -/
def hashMapTryFrom {α : Type} (elem : LuaObject → Except String α) :
    LuaObject → Except String (List (String × α))
  | .Map m => (hashMapConvGo elem m).map mapCollect
  | _ => .error "Not a Map"

/-- `TryFrom<LuaObject> for (T1, T2)`: an `Array` of length exactly two whose
elements convert; any other `Array` length is the distinct "Invalid sized
array" failure, a non-`Array` is "Not an Array". -/
def tupleTryFrom {α β : Type} (f : LuaObject → Except String α)
    (g : LuaObject → Except String β) : LuaObject → Except String (α × β)
  | .Array [a, b] =>
    match f a with
    | .error _ => .error "Couldn't convert first arg"
    | .ok x =>
      match g b with
      | .error _ => .error "Couldn't convert second arg"
      | .ok y => .ok (x, y)
  | .Array _ => .error "Invalid sized array"
  | _ => .error "Not an Array"

/-- The identity conversion `HashMap<String, LuaObject>::try_from` uses for
its values (the reflexive `TryFrom` via `From`). -/
def luaToHashMapLua : LuaObject → Except String (List (String × LuaObject)) :=
  hashMapTryFrom (fun v => .ok v)

/-- Domain `Ingredient` record (recipe.rs lines 9-14; `amount: i64`). -/
structure Ingredient : Type where
  name : String
  amount : Int
  type_ : String
deriving DecidableEq, Repr

/-- Domain `Recipe` record (recipe.rs lines 16-24); `speed` is an `f64`,
modelled as ℚ. -/
structure Recipe : Type where
  name : String
  category : String
  enabled : Bool
  ingredients : List Ingredient
  speed : ℚ
  results : List Ingredient
deriving DecidableEq, Repr

/-- `TryFrom<LuaObject> for Ingredient` (recipe.rs lines 29-67): probe the
2-tuple shape and the keyed-map shape; exactly one must succeed. -/
def Ingredient.tryFrom (value : LuaObject) : Except String Ingredient :=
  let array_form := tupleTryFrom luaToString luaToI64 value
  let map_form := luaToHashMapLua value
  match array_form, map_form with
  | .ok (name, amount), .error _ => .ok ⟨name, amount, "item"⟩
  | .error _, .ok map =>
    match hmRemove map "name" with
    | none => .error "Cannot find field 'name'"
    | some (lname, m1) =>
      match luaToString lname with
      | .error e => .error e
      | .ok name =>
        match (match hmRemove m1 "amount" with
               | none => Except.ok ((1 : Int), m1)
               | some (la, m2) => (luaToI64 la).map (fun a => (a, m2))) with
        | .error e => .error e
        | .ok (amount, m2) =>
          match (match hmRemove m2 "type" with
                 | none => Except.ok ("item" : String)
                 | some (lt, _) => luaToString lt) with
          | .error e => .error e
          | .ok ty => .ok ⟨name, amount, ty⟩
  | _, _ => .error "Cannot decode ingredient"

/-- The `result`/`result_count` fallback used when the `results` key is
absent (recipe.rs lines 91-108 and 125-142, identical in both branches):
build a one-element result list, threading the map through the two
`remove_entry` calls. -/
def resultsFallback (m : List (String × LuaObject)) :
    Except String (List Ingredient × List (String × LuaObject)) :=
  match hmRemove m "result" with
  | none => .error "No entry 'result' or 'results'"
  | some (r, m1) =>
    match hmRemove m1 "result_count" with
    | none => (luaToString r).map (fun s => ([⟨s, 1, "item"⟩], m1))
    | some (c, m2) =>
      match luaToString r with
      | .error e => .error e
      | .ok s => (luaToI64 c).map (fun n => ([⟨s, n, "item"⟩], m2))

/-- The `(results, enabled, energy_required, ingredients)` extraction of
`TryFrom<LuaObject> for Recipe`, written once; the source repeats this block
textually for the `normal` sub-table and for the top-level table (recipe.rs
lines 88-156).  The `remove_entry` calls are sequenced on the map exactly as
in the source. -/
def recipeFields (m0 : List (String × LuaObject)) :
    Except String (List Ingredient × Bool × ℚ × List Ingredient) :=
  match (match hmRemove m0 "results" with
         | some (l, m1) => (vecTryFrom Ingredient.tryFrom l).map (fun v => (v, m1))
         | none => resultsFallback m0) with
  | .error e => .error e
  | .ok (results, m1) =>
  match (match hmRemove m1 "enabled" with
         | none => Except.ok (true, m1)
         | some (l, m2) => (luaToBool l).map (fun b => (b, m2))) with
  | .error e => .error e
  | .ok (enabled, m2) =>
  match (match hmRemove m2 "energy_required" with
         | none => Except.ok ((1 : ℚ), m2)
         | some (l, m3) => (luaToF64 l).map (fun q => (q, m3))) with
  | .error e => .error e
  | .ok (energy, m3) =>
  match hmRemove m3 "ingredients" with
  | none => .error "No entry 'ingredients'"
  | some (l, _) =>
    (vecTryFrom Ingredient.tryFrom l).map (fun ing => (results, enabled, energy, ing))

/-- `TryFrom<LuaObject> for Recipe` (recipe.rs lines 69-167).  Note that
`remove_entry("normal")` runs before the conversion of its value is checked,
so when `normal` is present but not a map, the fallback branch sees the table
without the `normal` key, as in the source. -/
def Recipe.tryFrom (lua : LuaObject) : Except String Recipe :=
  match luaToHashMapLua lua with
  | .error e => .error e
  | .ok conts0 =>
  match hmRemove conts0 "name" with
  | none => .error "No entry 'name'"
  | some (lname, conts1) =>
  match luaToString lname with
  | .error e => .error e
  | .ok name =>
  match (match hmRemove conts1 "category" with
         | none => Except.ok ("crafting", conts1)
         | some (l, conts2) => (luaToString l).map (fun s => (s, conts2))) with
  | .error e => .error e
  | .ok (category, conts2) =>
  let (normalMap, conts3) :
      Except String (List (String × LuaObject)) × List (String × LuaObject) :=
    match hmRemove conts2 "normal" with
    | none => (.error "No normal recipe", conts2)
    | some (l, c3) => (luaToHashMapLua l, c3)
  match (match normalMap with
         | .ok recipeMap => recipeFields recipeMap
         | .error _ => recipeFields conts3) with
  | .error e => .error e
  | .ok (results, enabled, energy, ingredients) =>
    .ok ⟨name, category, enabled, ingredients, 1 / energy, results⟩

/-! ### Concrete inputs and observations used in the theorems below -/

/-- Discriminator: is this outcome a parse failure (nom `Err::Error`)? -/
def PRes.isErr {α : Type} : PRes α → Bool
  | .err _ => true
  | _ => false

/-- The error produced by a toplevel attempt on the malformed form `{`
(an opening brace with nothing after it). -/
def c1DemoErr : PErr :=
  match parse_toplevel 50 LuaContext.new "\x7b".data with
  | (_, .err e) => e
  | _ => ⟨[]⟩

/-- The single-registration input of the spec's end-to-end test property. -/
def c2Input : List Char :=
  "data:extend(\x7b \x7b name = \"a\", ingredients = \x7b\x7b\"b\", 1\x7d\x7d, results = \x7b\x7b\"a\", 1\x7d\x7d \x7d \x7d)".data

/-- The accumulator state after the full-file pass over `c2Input`. -/
def c2Ctx : LuaContext := (parse_all 100 LuaContext.new c2Input).1

/-- The single element of the registration list after that pass. -/
def c2Elem : LuaObject := c2Ctx.data_extends.getD 0 (LuaObject.Bool false)

end Factorio

namespace Factorio

/-! ## Shared auxiliary lemmas -/

theorem hmLookup_hmInsert {α : Type} (l : List (String × α)) (k k' : String) (v : α) :
    hmLookup (hmInsert l k v) k' = if k' = k then some v else hmLookup l k' := by
  induction l with
  | nil =>
    by_cases h : k' = k
    · subst h; simp [hmInsert, hmLookup]
    · simp [hmInsert, hmLookup, h, Ne.symm h]
  | cons p rest ih =>
    obtain ⟨k0, v0⟩ := p
    by_cases h0 : k0 = k
    · subst h0
      by_cases h1 : k' = k0
      · subst h1; simp [hmInsert, hmLookup]
      · simp [hmInsert, hmLookup, h1, Ne.symm h1]
    · by_cases h1 : k' = k0
      · subst h1
        simp [hmInsert, hmLookup, h0, Ne.symm h0]
      · simp [hmInsert, hmLookup, h0, h1, Ne.symm h1, ih]

theorem hmLookup_mapCollect_go {α : Type} (fields : List (String × α))
    (acc : List (String × α)) (k : String) :
    hmLookup (fields.foldl (fun acc p => hmInsert acc p.1 p.2) acc) k =
      ((fields.filter (fun p => p.1 = k)).getLast?).elim (hmLookup acc k) (fun p => some p.2) := by
  induction fields generalizing acc with
  | nil => simp
  | cons p rest ih =>
    obtain ⟨k0, v0⟩ := p
    rw [List.foldl_cons, ih, List.filter_cons]
    by_cases h0 : k0 = k
    · subst h0
      cases hl : (rest.filter (fun p => p.1 = k0)).getLast? with
      | some q => simp [hl, List.getLast?_cons, List.getLastD_eq_getLast?]
      | none => simp [hl, List.getLast?_cons, List.getLastD_eq_getLast?, hmLookup_hmInsert]
    · cases hl : (rest.filter (fun p => p.1 = k)).getLast? with
      | some q => simp [hl, h0]
      | none => simp [hl, h0, hmLookup_hmInsert, Ne.symm h0]

mutual

theorem simplify_simplify : ∀ v : LuaObject, v.simplify.simplify = v.simplify
  | .Map m => congrArg LuaObject.Map (simplifyFields_simplify m)
  | .Array a => congrArg LuaObject.Array (simplifyList_simplify a)
  | .Bool _ => rfl
  | .Str _ => rfl
  | .Int _ => rfl
  | .Float _ => rfl
  | .Expr (.Literal y) => simplify_simplify y
  | .Expr (.Var _) => rfl
  | .Expr (.Funcall _ _) => rfl
  | .Expr (.Fundef _) => rfl
  | .Expr (.Unop _ _) => rfl
  | .Expr (.Binop _ _ _) => rfl

theorem simplifyFields_simplify :
    ∀ l, simplifyFields (simplifyFields l) = simplifyFields l
  | [] => rfl
  | (k, v) :: rest => by
    simp only [simplifyFields, simplify_simplify v, simplifyFields_simplify rest]

theorem simplifyList_simplify :
    ∀ l, simplifyList (simplifyList l) = simplifyList l
  | [] => rfl
  | v :: rest => by
    simp only [simplifyList, simplify_simplify v, simplifyList_simplify rest]

end

theorem simplifyFields_eq_map (l : List (String × LuaObject)) :
    simplifyFields l = l.map (fun p => (p.1, p.2.simplify)) := by
  induction l with
  | nil => rfl
  | cons p rest ih => obtain ⟨k, v⟩ := p; simp [simplifyFields, ih]

theorem simplifyList_eq_map (l : List LuaObject) :
    simplifyList l = l.map LuaObject.simplify := by
  induction l with
  | nil => rfl
  | cons v rest ih => simp [simplifyList, ih]

theorem takeWhile_length_le (p : Char → Bool) (l : List Char) :
    (l.takeWhile p).length ≤ l.length := by
  induction l with
  | nil => simp
  | cons c rest ih =>
    by_cases h : p c <;> simp [List.takeWhile_cons, h] <;> omega

theorem takeWhile_drop_takeWhile (p : Char → Bool) (l : List Char) :
    ((l.drop (l.takeWhile p).length).takeWhile p) = [] := by
  induction l with
  | nil => rfl
  | cons c rest ih =>
    by_cases h : p c
    · simpa [List.takeWhile_cons, h] using ih
    · simp [List.takeWhile_cons, h]

theorem take_length_takeWhile (p : Char → Bool) (l : List Char) :
    l.take (l.takeWhile p).length = l.takeWhile p := by
  induction l with
  | nil => rfl
  | cons c rest ih =>
    by_cases h : p c
    · simp [List.takeWhile_cons, h, ih]
    · simp [List.takeWhile_cons, h]

theorem take1While_of_run_ne_nil (p : Char → Bool) (k : String) (input : List Char)
    (h : input.takeWhile p ≠ []) :
    take1While p k input = .ok (input.drop (input.takeWhile p).length) (input.takeWhile p) := by
  rw [take1While]
  simp only [List.isEmpty_iff, h, if_false]

theorem take1While_of_run_nil (p : Char → Bool) (k : String) (input : List Char)
    (h : input.takeWhile p = []) :
    take1While p k input = .err (mkErr input k) := by
  rw [take1While]
  simp only [List.isEmpty_iff, h, if_true]

theorem many1_take1While_run (p : Char → Bool) (k : String) (input : List Char)
    (h : input.takeWhile p ≠ []) :
    many1 (take1While p k) (input.length + 1) input =
      .ok (input.drop (input.takeWhile p).length) [input.takeWhile p] := by
  have h1 : 1 ≤ (input.takeWhile p).length := by
    cases hh : input.takeWhile p with
    | nil => exact absurd hh h
    | cons a l => simp
  have hle := takeWhile_length_le p input
  have hlen : (input.drop (input.takeWhile p).length).length ≠ input.length := by
    rw [List.length_drop]; omega
  have hrest : take1While p k (input.drop (input.takeWhile p).length) =
      .err (mkErr (input.drop (input.takeWhile p).length) k) :=
    take1While_of_run_nil p k _ (takeWhile_drop_takeWhile p input)
  rw [many1, take1While_of_run_ne_nil p k input h]
  show (if (input.drop (input.takeWhile p).length).length = input.length
      then PRes.err (mkErr input "Many1")
      else many0Go (take1While p k) (input.length + 1)
        (input.drop (input.takeWhile p).length) [input.takeWhile p]) =
    PRes.ok (input.drop (input.takeWhile p).length) [input.takeWhile p]
  rw [if_neg hlen, many0Go, hrest]

theorem parse_num_recognizer (input : List Char) (h : input.takeWhile isNumRunChar ≠ []) :
    precognize input
        (many1 (take1While isNumRunChar "IsA") (input.length + 1) input) =
      .ok (input.drop (input.takeWhile isNumRunChar).length) (input.takeWhile isNumRunChar) := by
  rw [many1_take1While_run isNumRunChar "IsA" input h, precognize]
  have hle := takeWhile_length_le isNumRunChar input
  have : input.length - (input.drop (input.takeWhile isNumRunChar).length).length =
      (input.takeWhile isNumRunChar).length := by
    rw [List.length_drop]; omega
  rw [this, take_length_takeWhile]

theorem i64FromStr_ne_nil {s : List Char} {n : Int} (h : i64FromStr s = some n) : s ≠ [] := by
  intro hnil
  rw [hnil] at h
  cases h

/-! ## Claim theorems -/

/-- C5.  `simplify` is idempotent; on a `Map` it applies itself to every
entry's value, on an `Array` to every element; an `Expr` node wrapping a
plain `Literal` is rewritten to its (simplified) inner value; an `Expr`
node wrapping any non-literal expression is left untouched. -/
theorem c5_simplify_idempotent_and_recursive :
    (∀ v : LuaObject, v.simplify.simplify = v.simplify)
    ∧ (∀ m : List (String × LuaObject),
        (LuaObject.Map m).simplify = LuaObject.Map (m.map (fun p => (p.1, p.2.simplify))))
    ∧ (∀ a : List LuaObject,
        (LuaObject.Array a).simplify = LuaObject.Array (a.map LuaObject.simplify))
    ∧ (∀ x : LuaObject, (LuaObject.Expr (LuaExpr.Literal x)).simplify = x.simplify)
    ∧ (∀ x : LuaExpr, (∀ y, x ≠ LuaExpr.Literal y) →
        (LuaObject.Expr x).simplify = LuaObject.Expr x) := by
  refine ⟨simplify_simplify, ?_, ?_, fun _ => rfl, ?_⟩
  · intro m; rw [LuaObject.simplify, simplifyFields_eq_map]
  · intro a; rw [LuaObject.simplify, simplifyList_eq_map]
  · intro x hx
    cases x with
    | Literal y => exact absurd rfl (hx y)
    | _ => rfl

/-- Witness for C5: the non-literal-untouched conjunct at the concrete
expression `Var ["a"]`. -/
theorem c5_witness :
    (LuaObject.Expr (LuaExpr.Var ["a"])).simplify = LuaObject.Expr (LuaExpr.Var ["a"]) :=
  c5_simplify_idempotent_and_recursive.2.2.2.2 (LuaExpr.Var ["a"])
    (fun _ h => LuaExpr.noConfusion h)

/-- C9.  The fixed 2-element tuple conversion succeeds exactly on an `Array`
of length two whose elements convert; every other `Array` fails with the
wrong-length error, every non-`Array` with the wrong-variant error, and the
two error messages differ. -/
theorem c9_tuple_conversion {α β : Type}
    (f : LuaObject → Except String α) (g : LuaObject → Except String β) :
    (∀ (v : LuaObject) (a : α) (b : β),
      tupleTryFrom f g v = .ok (a, b) ↔
        ∃ x y, v = LuaObject.Array [x, y] ∧ f x = .ok a ∧ g y = .ok b)
    ∧ (∀ xs : List LuaObject, xs.length ≠ 2 →
        tupleTryFrom f g (LuaObject.Array xs) = .error "Invalid sized array")
    ∧ (∀ v : LuaObject, (∀ xs, v ≠ LuaObject.Array xs) →
        tupleTryFrom f g v = .error "Not an Array")
    ∧ ("Invalid sized array" : String) ≠ "Not an Array" := by
  refine ⟨?_, ?_, ?_, by decide⟩
  · intro v a b
    constructor
    · intro h
      match v with
      | .Array [x, y] =>
        refine ⟨x, y, rfl, ?_⟩
        simp only [tupleTryFrom] at h
        cases hf : f x with
        | error e => rw [hf] at h; exact absurd h (by simp)
        | ok a' =>
          rw [hf] at h
          cases hg : g y with
          | error e => rw [hg] at h; exact absurd h (by simp)
          | ok b' =>
            rw [hg] at h
            obtain ⟨rfl, rfl⟩ : a' = a ∧ b' = b := by
              constructor <;> { cases h; rfl }
            exact ⟨rfl, rfl⟩
      | .Array [] => exact absurd h (by simp [tupleTryFrom])
      | .Array [x] => exact absurd h (by simp [tupleTryFrom])
      | .Array (x :: y :: z :: rest) => exact absurd h (by simp [tupleTryFrom])
      | .Map _ => exact absurd h (by simp [tupleTryFrom])
      | .Bool _ => exact absurd h (by simp [tupleTryFrom])
      | .Str _ => exact absurd h (by simp [tupleTryFrom])
      | .Int _ => exact absurd h (by simp [tupleTryFrom])
      | .Float _ => exact absurd h (by simp [tupleTryFrom])
      | .Expr _ => exact absurd h (by simp [tupleTryFrom])
    · rintro ⟨x, y, rfl, hfx, hgy⟩
      simp [tupleTryFrom, hfx, hgy]
  · intro xs hlen
    match xs, hlen with
    | [], _ => rfl
    | [x], _ => rfl
    | [x, y], h => exact absurd rfl h
    | x :: y :: z :: rest, _ => rfl
  · intro v hv
    match v with
    | .Array xs => exact absurd rfl (hv xs)
    | .Map _ | .Bool _ | .Str _ | .Int _ | .Float _ | .Expr _ => rfl

/-- Witness for C9: the wrong-length failure at the concrete empty array,
and the success shape at a concrete two-element array. -/
theorem c9_witness :
    tupleTryFrom luaToString luaToI64 (LuaObject.Array []) = .error "Invalid sized array"
    ∧ tupleTryFrom luaToString luaToI64
        (LuaObject.Array [LuaObject.Str "b", LuaObject.Int 1]) = .ok ("b", 1) :=
  ⟨(c9_tuple_conversion luaToString luaToI64).2.1 [] (by decide),
   ((c9_tuple_conversion luaToString luaToI64).1 _ _ _).2
     ⟨LuaObject.Str "b", LuaObject.Int 1, rfl, rfl, rfl⟩⟩

/-- C8.  Whenever the leading identifier token of the input is exactly one of
the reserved words, `parse_identifier` fails; consequently no successful
`parse_identifier` ever returns a reserved word (so none can appear as a bare
name, map key, parameter, or dotted-path segment, all of which go through
`parse_identifier`). -/
theorem c8_reserved_words_rejected :
    (∀ (input rest w : List Char),
      identRecognizer input = .ok rest w → String.mk w ∈ reservedWords →
      parse_identifier input = .err (mkErr (whitespace rest) "Satisfy"))
    ∧ (∀ (input : List Char) (rest : List Char) (s : String),
      parse_identifier input = .ok rest s → s ∉ reservedWords) := by
  constructor
  · intro input rest w hrec hmem
    simp only [parse_identifier, hrec, pseq, hmem, if_true]
  · intro input rest s hok hmem
    simp only [parse_identifier] at hok
    cases hrec : identRecognizer input with
    | ok rest' w =>
      rw [hrec] at hok
      simp only [pseq] at hok
      by_cases h : String.mk w ∈ reservedWords
      · rw [if_pos h] at hok; cases hok
      · rw [if_neg h] at hok
        cases hok
        exact h hmem
    | err e => rw [hrec] at hok; cases hok
    | panic => rw [hrec] at hok; cases hok
    | out => rw [hrec] at hok; cases hok

/-- Witness for C8: the reserved word `return` as the leading identifier
token of `"return x"` makes `parse_identifier` fail. -/
theorem c8_witness :
    parse_identifier "return x".data = .err (mkErr (whitespace " x".data) "Satisfy") :=
  c8_reserved_words_rejected.1 "return x".data " x".data "return".data rfl (by decide)

/-- C10.  Collecting map-literal fields binds a repeated key to the value of
its last (rightmost) occurrence, silently; concretely, `{a = 1, a = 2}`
parses successfully to a one-entry map holding the second value. -/
theorem c10_duplicate_map_keys_last_wins :
    (∀ (fields : List (String × LuaObject)) (k : String),
      hmLookup (mapCollect fields) k =
        ((fields.filter (fun p => p.1 = k)).getLast?).map Prod.snd)
    ∧ parse_object 50 "{a = 1, a = 2}".data =
        .ok [] (LuaObject.Map [("a", LuaObject.Expr (LuaExpr.Literal (LuaObject.Int 2)))]) := by
  constructor
  · intro fields k
    rw [mapCollect, hmLookup_mapCollect_go]
    cases (fields.filter (fun p => p.1 = k)).getLast? <;> simp [hmLookup]
  · rfl

/-- C3 counterexample.  Parsing `{1, 2, 3}` with the value grammar succeeds
and consumes everything, but the three elements are `Expr(Literal(Int _))`
wrappers, not the bare integer values the claim states. -/
theorem c3_counterexample :
    parse_object 50 "{1, 2, 3}".data =
      .ok [] (LuaObject.Array
        [LuaObject.Expr (LuaExpr.Literal (LuaObject.Int 1)),
         LuaObject.Expr (LuaExpr.Literal (LuaObject.Int 2)),
         LuaObject.Expr (LuaExpr.Literal (LuaObject.Int 3))])
    ∧ LuaObject.Array
        [LuaObject.Expr (LuaExpr.Literal (LuaObject.Int 1)),
         LuaObject.Expr (LuaExpr.Literal (LuaObject.Int 2)),
         LuaObject.Expr (LuaExpr.Literal (LuaObject.Int 3))] ≠
      LuaObject.Array [LuaObject.Int 1, LuaObject.Int 2, LuaObject.Int 3] :=
  ⟨rfl, by simp⟩

/-- C3 (amended).  Parsing `{1, 2, 3}` with the value grammar succeeds,
consumes the whole text, and yields the Array whose three elements wrap the
integer literals 1, 2, 3 as deferred expressions (`Expr(Literal(Int _))`);
`simplify` collapses it to the array of the three integer values.  The array
form is chosen because no leading `identifier =` is present. -/
theorem c3_array_of_wrapped_int_literals :
    parse_object 50 "{1, 2, 3}".data =
      .ok [] (LuaObject.Array
        [LuaObject.Expr (LuaExpr.Literal (LuaObject.Int 1)),
         LuaObject.Expr (LuaExpr.Literal (LuaObject.Int 2)),
         LuaObject.Expr (LuaExpr.Literal (LuaObject.Int 3))])
    ∧ (LuaObject.Array
        [LuaObject.Expr (LuaExpr.Literal (LuaObject.Int 1)),
         LuaObject.Expr (LuaExpr.Literal (LuaObject.Int 2)),
         LuaObject.Expr (LuaExpr.Literal (LuaObject.Int 3))]).simplify =
      LuaObject.Array [LuaObject.Int 1, LuaObject.Int 2, LuaObject.Int 3] :=
  ⟨rfl, rfl⟩

/-- C4 counterexample.  On the recognized run `1.2.3`, which parses as
neither an `i64` nor an `f64`, the numeric parser does not return a parse
failure: it panics (the `unwrap` on the failed `f64::from_str`). -/
theorem c4_counterexample :
    parse_num "1.2.3".data = PRes.panic
    ∧ (parse_num "1.2.3".data).isErr = false :=
  ⟨rfl, rfl⟩

/-- C4 (amended).  Numeric-literal parsing recognizes the longest prefix run
of digits, `.`, and `-` (failing when the run is empty); if that run parses
as a host-width (`i64`) integer the result is an Int value, otherwise if it
parses as a floating-point number the result is a Float value; but a
recognized run that parses as neither (such as `1.2.3`) makes the code
panic via `unwrap`, instead of returning a parse failure. -/
theorem c4_num_classification_with_panic :
    ∀ input : List Char,
    (input.takeWhile isNumRunChar = [] → ∃ e, parse_num input = .err e)
    ∧ (∀ n : Int, i64FromStr (input.takeWhile isNumRunChar) = some n →
        parse_num input =
          .ok (whitespace (input.drop (input.takeWhile isNumRunChar).length))
            (LuaObject.Int n))
    ∧ (∀ q : ℚ, i64FromStr (input.takeWhile isNumRunChar) = none →
        f64FromStr (input.takeWhile isNumRunChar) = some q →
        input.takeWhile isNumRunChar ≠ [] →
        parse_num input =
          .ok (whitespace (input.drop (input.takeWhile isNumRunChar).length))
            (LuaObject.Float q))
    ∧ (i64FromStr (input.takeWhile isNumRunChar) = none →
        f64FromStr (input.takeWhile isNumRunChar) = none →
        input.takeWhile isNumRunChar ≠ [] →
        parse_num input = PRes.panic) := by
  intro input
  refine ⟨?_, ?_, ?_, ?_⟩
  · intro h
    refine ⟨addCtx input "Many1" (mkErr input "IsA"), ?_⟩
    rw [parse_num, many1, take1While_of_run_nil isNumRunChar "IsA" input h]
    rfl
  · intro n hn
    rw [parse_num, parse_num_recognizer input (i64FromStr_ne_nil hn), pseq, hn]
  · intro q hn hq hne
    rw [parse_num, parse_num_recognizer input hne, pseq, hn, hq]
  · intro hn hq hne
    rw [parse_num, parse_num_recognizer input hne, pseq, hn, hq]

/-- Witness for C4's amended theorem: the integer branch on `12 `, and the
panic branch on the concrete run `1.2.3`. -/
theorem c4_witness :
    parse_num "12 ".data = .ok [] (LuaObject.Int 12)
    ∧ parse_num "1.2.3".data = PRes.panic :=
  ⟨(c4_num_classification_with_panic "12 ".data).2.1 12 rfl,
   (c4_num_classification_with_panic "1.2.3".data).2.2.2 rfl rfl (by decide)⟩

/-- C7.  Every successfully parsed binary operation has a value literal as
its left operand and parses the whole remainder after the operator (and
skip) as one full expression for its right operand — strict right
associativity with no precedence levels; concretely, `a + b * c` parses as
`Binop(+, literal a, Binop(*, literal b, literal c))`. -/
theorem c7_binop_literal_lhs_right_assoc :
    (∀ (f : Nat) (input rest : List Char) (e : LuaExpr),
      parse_binop (f+1) input = .ok rest e →
      ∃ (op : BinopKind) (lhs : LuaObject) (r1 r2 : List Char) (rhs : LuaExpr),
        parse_object f input = .ok r1 lhs ∧
        parse_binopkind r1 = .ok r2 op ∧
        parse_expr f (whitespace r2) = .ok rest rhs ∧
        e = LuaExpr.Binop op (LuaExpr.Literal lhs) rhs)
    ∧ parse_expr 50 "a + b * c".data =
        .ok [] (LuaExpr.Binop BinopKind.Plus
          (LuaExpr.Literal (LuaObject.Expr (LuaExpr.Var ["a"])))
          (LuaExpr.Binop BinopKind.Times
            (LuaExpr.Literal (LuaObject.Expr (LuaExpr.Var ["b"])))
            (LuaExpr.Literal (LuaObject.Expr (LuaExpr.Var ["c"]))))) := by
  constructor
  · intro f input rest e h
    rw [parse_binop] at h
    cases h1 : parse_object f input with
    | ok r1 lhs =>
      rw [h1] at h
      simp only [pseq] at h
      cases h2 : parse_binopkind r1 with
      | ok r2 op =>
        rw [h2] at h
        simp only [pseq] at h
        cases h3 : parse_expr f (whitespace r2) with
        | ok r3 rhs =>
          rw [h3] at h
          simp only [pseq] at h
          cases h
          exact ⟨op, lhs, r1, r2, rhs, rfl, h2, h3, rfl⟩
        | err e' => rw [h3] at h; simp only [pseq] at h; cases h
        | panic => rw [h3] at h; simp only [pseq] at h; cases h
        | out => rw [h3] at h; simp only [pseq] at h; cases h
      | err e' => rw [h2] at h; simp only [pseq] at h; cases h
      | panic => rw [h2] at h; simp only [pseq] at h; cases h
      | out => rw [h2] at h; simp only [pseq] at h; cases h
    | err e' => rw [h1] at h; simp only [pseq] at h; cases h
    | panic => rw [h1] at h; simp only [pseq] at h; cases h
    | out => rw [h1] at h; simp only [pseq] at h; cases h
  · rfl

/-- Witness for C7: the structural statement applied to the successful parse
of the binary operation in `a + b * c` itself. -/
theorem c7_witness :
    ∃ (op : BinopKind) (lhs : LuaObject) (r1 r2 : List Char) (rhs : LuaExpr),
      parse_object 48 "a + b * c".data = .ok r1 lhs ∧
      parse_binopkind r1 = .ok r2 op ∧
      parse_expr 48 (whitespace r2) = .ok [] rhs ∧
      LuaExpr.Binop BinopKind.Plus
          (LuaExpr.Literal (LuaObject.Expr (LuaExpr.Var ["a"])))
          (LuaExpr.Binop BinopKind.Times
            (LuaExpr.Literal (LuaObject.Expr (LuaExpr.Var ["b"])))
            (LuaExpr.Literal (LuaObject.Expr (LuaExpr.Var ["c"])))) =
        LuaExpr.Binop op (LuaExpr.Literal lhs) rhs :=
  c7_binop_literal_lhs_right_assoc.1 48 "a + b * c".data []
    (LuaExpr.Binop BinopKind.Plus
      (LuaExpr.Literal (LuaObject.Expr (LuaExpr.Var ["a"])))
      (LuaExpr.Binop BinopKind.Times
        (LuaExpr.Literal (LuaObject.Expr (LuaExpr.Var ["b"])))
        (LuaExpr.Literal (LuaObject.Expr (LuaExpr.Var ["c"]))))) rfl

/-- C1.  When the top-level alternation fails, the failure leaves the
accumulator exactly as it was (no partial mutation from any abandoned or
failing alternative is visible), it is fatal for the whole pass (the
driver returns the same error), and the error's trail records that the
`Stmt` rule (and the alternation) was being attempted at that position. -/
theorem c1_toplevel_failure_atomic_fatal_labeled :
    ∀ (f : Nat) (ctx : LuaContext) (input : List Char) (ctx' : LuaContext) (e : PErr),
      parse_toplevel f ctx input = (ctx', .err e) →
      ctx' = ctx
      ∧ (input, "Stmt") ∈ e.trail
      ∧ (input, "Alt") ∈ e.trail
      ∧ parse_all (f+1) ctx input = (ctx, .err e) := by
  intro f ctx input ctx' e h
  match f with
  | 0 => exact absurd h (by simp [parse_toplevel])
  | g+1 =>
    have hkeep := h
    rw [parse_toplevel] at h
    cases h1 : parse_data_extend g input with
    | ok rest obj => rw [h1] at h; simp at h
    | panic => rw [h1] at h; simp at h
    | out => rw [h1] at h; simp at h
    | err e1 =>
      rw [h1] at h
      cases h2 : parse_local g input with
      | ok rest ne => rw [h2] at h; simp at h
      | panic => rw [h2] at h; simp at h
      | out => rw [h2] at h; simp at h
      | err e2 =>
        rw [h2] at h
        cases h3 : parse_named_function g input with
        | ok rest nf => rw [h3] at h; simp at h
        | panic => rw [h3] at h; simp at h
        | out => rw [h3] at h; simp at h
        | err e3 =>
          rw [h3] at h
          cases h4 : parse_stmt g input with
          | ok rest u => rw [h4] at h; simp at h
          | panic => rw [h4] at h; simp at h
          | out => rw [h4] at h; simp at h
          | err e4 =>
            rw [h4] at h
            simp only [Prod.mk.injEq, PRes.err.injEq] at h
            obtain ⟨hctx, he⟩ := h
            subst hctx
            have hstmt : (input, "Stmt") ∈ e4.trail := by
              match g with
              | 0 => exact absurd h4 (by simp [parse_stmt])
              | g'+1 =>
                rw [parse_stmt] at h4
                cases h5 : palt input [
                    fun _ => parse_return g' input,
                    fun _ => parse_assign g' input,
                    fun _ => pmap (parse_local g' input)
                      (fun ne => LuaStmt.Assign (LValue.Dotted [ne.1]) ne.2),
                    fun _ => parse_ifthen g' input,
                    fun _ => pmap (parse_expr g' input) LuaStmt.Expr] with
                | ok rest v => rw [h5] at h4; simp [pcontext] at h4
                | panic => rw [h5] at h4; simp [pcontext] at h4
                | out => rw [h5] at h4; simp [pcontext] at h4
                | err e5 =>
                  rw [h5] at h4
                  simp only [pcontext, PRes.err.injEq] at h4
                  rw [← h4]
                  simp [addCtx]
            subst he
            refine ⟨rfl, ?_, ?_, ?_⟩
            · simp only [addCtx]
              exact List.mem_append_left _ hstmt
            · simp [addCtx]
            · rw [parse_all, hkeep]

/-- Witness for C1: the malformed top-level form `{` (a brace with nothing
after it) at fuel 50, starting from the fresh accumulator. -/
theorem c1_witness :
    LuaContext.new = LuaContext.new
    ∧ ("\x7b".data, "Stmt") ∈ c1DemoErr.trail
    ∧ ("\x7b".data, "Alt") ∈ c1DemoErr.trail
    ∧ parse_all 51 LuaContext.new "\x7b".data = (LuaContext.new, .err c1DemoErr) :=
  c1_toplevel_failure_atomic_fatal_labeled 50 LuaContext.new "\x7b".data
    LuaContext.new c1DemoErr rfl

/-- C2 (the code's actual behavior at the claim's input).  The top-level
driver parses the single registration call and the registration list has
exactly one element; but decoding that element (or the recipe batch it
denotes) fails, because `parse_array` and `parse_field` leave every element
wrapped as `Expr(Literal(...))` and no `simplify` is applied before the
decode layer runs; decoding the `simplify`-collapsed element yields exactly
the recipe the claim (and the spec) describes, with defaulted
`enabled = true` and `category = "crafting"`. -/
theorem c2_registration_parses_but_decode_fails :
    (parse_all 100 LuaContext.new c2Input).2 = .ok [] ()
    ∧ c2Ctx.data_extends = [c2Elem]
    ∧ Recipe.tryFrom c2Elem = .error "Not a Map"
    ∧ vecTryFrom Recipe.tryFrom c2Elem = .error "Could not convert child 0: Not a Map"
    ∧ vecTryFrom Recipe.tryFrom c2Elem.simplify =
        .ok [{ name := "a", category := "crafting", enabled := true,
               ingredients := [{ name := "b", amount := 1, type_ := "item" }],
               speed := 1 / 1,
               results := [{ name := "a", amount := 1, type_ := "item" }] }] :=
  ⟨rfl, rfl, rfl, rfl, rfl⟩

/-! ## Leading-whitespace behavior of every rule reachable from the driver
(for C6).  Throughout, `c` is one of the four `multispace0` characters and
the input is `c :: input'`. -/

theorem ws_char_cases {c : Char} (hc : isMultispaceChar c = true) :
    c = ' ' ∨ c = '\t' ∨ c = '\r' ∨ c = '\n' := by
  have h := hc
  simp only [isMultispaceChar, Bool.or_eq_true, decide_eq_true_eq] at h
  tauto

theorem ws_not_numrun {c : Char} (hc : isMultispaceChar c = true) :
    isNumRunChar c = false := by
  rcases ws_char_cases hc with rfl | rfl | rfl | rfl <;> decide

theorem ws_not_alpha {c : Char} (hc : isMultispaceChar c = true) :
    isAsciiAlphaChar c = false := by
  rcases ws_char_cases hc with rfl | rfl | rfl | rfl <;> decide

theorem ws_ne_of_not_ws {c : Char} (hc : isMultispaceChar c = true)
    (d : Char) (hd : isMultispaceChar d = false) : d ≠ c := by
  intro h
  subst h
  rw [hc] at hd
  cases hd

theorem ptag_ws_err (t : List Char) (t0 : Char) (tr : List Char) (ht : t = t0 :: tr)
    (h0 : isMultispaceChar t0 = false) {c : Char} (hc : isMultispaceChar c = true)
    (input' : List Char) :
    ptag t (c :: input') = .err (mkErr (c :: input') "Tag") := by
  subst ht
  have hne : t0 ≠ c := ws_ne_of_not_ws hc t0 h0
  simp [ptag, List.isPrefixOf, hne]

theorem many1_err {α : Type} (p : List Char → PRes α) (fuel : Nat) (input : List Char)
    (e : PErr) (h : p input = .err e) :
    many1 p fuel input = .err (addCtx input "Many1" e) := by
  simp only [many1, h]

theorem sepList1_err {α β : Type} (sep : List Char → PRes β) (p : List Char → PRes α)
    (fuel : Nat) (input : List Char) (e : PErr) (h : p input = .err e) :
    sepList1 sep p fuel input = .err e := by
  simp only [sepList1, h]

theorem parse_num_ws_err {c : Char} (hc : isMultispaceChar c = true) (input' : List Char) :
    parse_num (c :: input') =
      .err (addCtx (c :: input') "Many1" (mkErr (c :: input') "IsA")) := by
  have h1 : (c :: input').takeWhile isNumRunChar = [] := by
    simp [List.takeWhile_cons, ws_not_numrun hc]
  simp only [parse_num,
    many1_err _ _ _ _ (take1While_of_run_nil isNumRunChar "IsA" _ h1),
    precognize, pseq]

theorem parse_identifier_ws_err {c : Char} (hc : isMultispaceChar c = true)
    (input' : List Char) :
    parse_identifier (c :: input') =
      .err (addCtx (c :: input') "Alt" (mkErr (c :: input') "Tag")) := by
  have ha : (c :: input').takeWhile isAsciiAlphaChar = [] := by
    simp [List.takeWhile_cons, ws_not_alpha hc]
  simp only [parse_identifier, identRecognizer, palt, altGo,
    take1While_of_run_nil isAsciiAlphaChar "Alpha" _ ha,
    ptag_ws_err "_".data '_' [] rfl (by decide) hc input',
    precognize, pseq]

theorem parse_namespaced_ws_err {c : Char} (hc : isMultispaceChar c = true)
    (input' : List Char) :
    parse_namespaced (c :: input') =
      .err (addCtx (c :: input') "Alt" (mkErr (c :: input') "Tag")) := by
  simp only [parse_namespaced,
    sepList1_err _ _ _ _ _ (parse_identifier_ws_err hc input'), pseq]

theorem parse_bool_ws_err {c : Char} (hc : isMultispaceChar c = true)
    (input' : List Char) :
    parse_bool (c :: input') =
      .err (addCtx (c :: input') "Alt" (mkErr (c :: input') "Tag")) := by
  simp only [parse_bool, palt, altGo,
    ptag_ws_err "true".data 't' "rue".data rfl (by decide) hc input',
    ptag_ws_err "false".data 'f' "alse".data rfl (by decide) hc input',
    pmap, pseq]

theorem parse_str_ws_err {c : Char} (hc : isMultispaceChar c = true)
    (input' : List Char) :
    parse_str (c :: input') = .err (mkErr (c :: input') "Tag") := by
  simp only [parse_str,
    ptag_ws_err "\"".data '"' [] rfl (by decide) hc input', pseq]

theorem parse_unopkind_ws_err {c : Char} (hc : isMultispaceChar c = true)
    (input' : List Char) :
    parse_unopkind (c :: input') = .err (mkErr (c :: input') "Tag") := by
  simp only [parse_unopkind,
    ptag_ws_err "#".data '#' [] rfl (by decide) hc input', pmap]

theorem findSubIdx_lt {pat : List Char} (hpat : pat ≠ []) :
    ∀ (l : List Char) (idx : Nat), findSubIdx pat l = some idx → idx < l.length := by
  intro l
  induction l with
  | nil =>
    intro idx h
    rw [findSubIdx.eq_1] at h
    simp [List.isEmpty_iff, hpat] at h
  | cons a rest ih =>
    intro idx h
    rw [findSubIdx.eq_2] at h
    by_cases hp : pat.isPrefixOf (a :: rest) = true
    · rw [if_pos hp] at h
      cases h
      simp
    · rw [if_neg hp] at h
      cases hfind : findSubIdx pat rest with
      | none => simp [hfind] at h
      | some j =>
        simp only [hfind, Option.map_some', Option.some.injEq] at h
        have := ih j hfind
        simp only [List.length_cons]
        omega

theorem findSubIdx_bracket_pos {c : Char} (hne : c ≠ '[') (input' : List Char) (idx : Nat)
    (h : findSubIdx "[".data (c :: input') = some idx) : 1 ≤ idx := by
  rw [findSubIdx.eq_2] at h
  have hp : ("[".data.isPrefixOf (c :: input')) = false := by
    simp [List.isPrefixOf, Ne.symm hne]
  rw [hp] at h
  simp only [Bool.false_eq_true, if_false] at h
  cases hfind : findSubIdx "[".data input' with
  | none => simp [hfind] at h
  | some j =>
    simp only [hfind, Option.map_some', Option.some.injEq] at h
    omega

theorem parse_lvalue_ws_err :
    ∀ (f : Nat) {c : Char}, isMultispaceChar c = true → ∀ (input' : List Char),
      2 * (input'.length + 1) ≤ f →
      ∃ e, parse_lvalue f (c :: input') = .err e := by
  intro f
  induction f using Nat.strong_induction_on with
  | _ f IH =>
    intro c hc input' hf
    rcases f with _ | _ | g
    · omega
    · omega
    · have hns := parse_namespaced_ws_err hc input'
      have hsub : ∃ e, parse_subscript (g + 1) (c :: input') = .err e := by
        show ∃ e, parse_subscript (Nat.succ g) (c :: input') = .err e
        rw [parse_subscript.eq_2]
        cases hfind : findSubIdx "[".data (c :: input') with
        | none => simp only [hfind]; exact ⟨_, rfl⟩
        | some idx =>
          simp only [hfind]
          have hcb : c ≠ '[' := Ne.symm (ws_ne_of_not_ws hc '[' (by decide))
          have hpos : 1 ≤ idx := findSubIdx_bracket_pos hcb input' idx hfind
          have hlt : idx < input'.length + 1 := by
            have := findSubIdx_lt (by decide) (c :: input') idx hfind
            simpa using this
          obtain ⟨j, rfl⟩ : ∃ j, idx = j + 1 := ⟨idx - 1, by omega⟩
          have htake : (c :: input').take (j + 1) = c :: input'.take j :=
            List.take_succ_cons
          have hib : 2 * ((input'.take j).length + 1) ≤ g := by
            rw [List.length_take]
            omega
          obtain ⟨e, he⟩ := IH g (by omega) hc (input'.take j) hib
          rw [htake, he]
          exact ⟨e, rfl⟩
      obtain ⟨e1, he1⟩ := hsub
      refine ⟨addCtx (c :: input') "Alt" (addCtx (c :: input') "Alt"
        (mkErr (c :: input') "Tag")), ?_⟩
      show parse_lvalue (Nat.succ (g + 1)) (c :: input') = _
      rw [parse_lvalue.eq_2]
      simp only [palt, altGo, he1, pmap, hns]

theorem parse_object_ws_err {c : Char} (hc : isMultispaceChar c = true)
    (input' : List Char) (f : Nat) :
    parse_object (f + 2) (c :: input') =
      .err (addCtx (c :: input') "Alt" (addCtx (c :: input') "Alt"
        (mkErr (c :: input') "Tag"))) := by
  have h4 : parse_array (f + 1) (c :: input') = .err (mkErr (c :: input') "Tag") := by
    show parse_array (Nat.succ f) (c :: input') = _
    rw [parse_array.eq_2, ptag_ws_err "\x7b".data '{' [] rfl (by decide) hc input']
    rfl
  have h5 : parse_map (f + 1) (c :: input') = .err (mkErr (c :: input') "Tag") := by
    show parse_map (Nat.succ f) (c :: input') = _
    rw [parse_map.eq_2, ptag_ws_err "\x7b".data '{' [] rfl (by decide) hc input']
    rfl
  show parse_object (Nat.succ (f + 1)) (c :: input') = _
  rw [parse_object.eq_2]
  simp only [palt, altGo, pcontext,
    parse_num_ws_err hc input', parse_bool_ws_err hc input',
    parse_str_ws_err hc input', h4, h5,
    parse_namespaced_ws_err hc input', pmap]

theorem parse_expr_ws_err {c : Char} (hc : isMultispaceChar c = true)
    (input' : List Char) (f : Nat) :
    parse_expr (f + 4) (c :: input') =
      .err (addCtx (c :: input') "Alt" (addCtx (c :: input') "Alt"
        (addCtx (c :: input') "Alt" (mkErr (c :: input') "Tag")))) := by
  have hfn : parse_function (parse_stmt (f + 2)) (fun i => PRes.ok i ()) (c :: input') =
      .err (mkErr (c :: input') "Tag") := by
    simp only [parse_function,
      ptag_ws_err "function".data 'f' "unction".data rfl (by decide) hc input', pseq]
  have hanon : parse_anon_function (f + 3) (c :: input') =
      .err (mkErr (c :: input') "Tag") := by
    show parse_anon_function (Nat.succ (f + 2)) (c :: input') = _
    rw [parse_anon_function.eq_2, hfn]
    rfl
  have hfc : parse_funcall (f + 3) (c :: input') =
      .err (addCtx (c :: input') "Alt" (mkErr (c :: input') "Tag")) := by
    show parse_funcall (Nat.succ (f + 2)) (c :: input') = _
    rw [parse_funcall.eq_2, parse_namespaced_ws_err hc input']
    rfl
  have hb : parse_binop (f + 3) (c :: input') =
      .err (addCtx (c :: input') "Alt" (addCtx (c :: input') "Alt"
        (mkErr (c :: input') "Tag"))) := by
    show parse_binop (Nat.succ (f + 2)) (c :: input') = _
    rw [parse_binop.eq_2, parse_object_ws_err hc input' f]
    rfl
  have hu : parse_unop (f + 3) (c :: input') = .err (mkErr (c :: input') "Tag") := by
    show parse_unop (Nat.succ (f + 2)) (c :: input') = _
    rw [parse_unop.eq_2, parse_unopkind_ws_err hc input']
    rfl
  have hlit : parse_object (f + 3) (c :: input') =
      .err (addCtx (c :: input') "Alt" (addCtx (c :: input') "Alt"
        (mkErr (c :: input') "Tag"))) := parse_object_ws_err hc input' (f + 1)
  show parse_expr (Nat.succ (f + 3)) (c :: input') = _
  rw [parse_expr.eq_2]
  simp only [palt, altGo, hanon, hfc, hb, hu,
    ptag_ws_err "(".data '(' [] rfl (by decide) hc input',
    hlit, pmap, pseq]

theorem parse_stmt_ws_err {c : Char} (hc : isMultispaceChar c = true)
    (input' : List Char) (f : Nat) (hlen : 2 * (input'.length + 1) ≤ f) :
    ∃ e, parse_stmt (f + 5) (c :: input') = .err e := by
  obtain ⟨elv, hlv⟩ := parse_lvalue_ws_err (f + 3) hc input' (by omega)
  have hret : parse_return (f + 4) (c :: input') = .err (mkErr (c :: input') "Tag") := by
    show parse_return (Nat.succ (f + 3)) (c :: input') = _
    rw [parse_return.eq_2,
      ptag_ws_err "return".data 'r' "eturn".data rfl (by decide) hc input']
    rfl
  have hasn : parse_assign (f + 4) (c :: input') = .err elv := by
    show parse_assign (Nat.succ (f + 3)) (c :: input') = _
    rw [parse_assign.eq_2, hlv]
    rfl
  have hloc : parse_local (f + 4) (c :: input') = .err (mkErr (c :: input') "Tag") := by
    show parse_local (Nat.succ (f + 3)) (c :: input') = _
    rw [parse_local.eq_2,
      ptag_ws_err "local".data 'l' "ocal".data rfl (by decide) hc input']
    rfl
  have hif : parse_ifthen (f + 4) (c :: input') = .err (mkErr (c :: input') "Tag") := by
    show parse_ifthen (Nat.succ (f + 3)) (c :: input') = _
    rw [parse_ifthen.eq_2,
      ptag_ws_err "if".data 'i' "f".data rfl (by decide) hc input']
    rfl
  have hex := parse_expr_ws_err hc input' f
  refine ⟨addCtx (c :: input') "Stmt" (addCtx (c :: input') "Alt"
    (addCtx (c :: input') "Alt" (addCtx (c :: input') "Alt"
      (addCtx (c :: input') "Alt" (mkErr (c :: input') "Tag"))))), ?_⟩
  show parse_stmt (Nat.succ (f + 4)) (c :: input') = _
  rw [parse_stmt.eq_2]
  simp only [palt, altGo, pcontext, pmap, hret, hasn, hloc, hif, hex, pseq]

theorem parse_toplevel_ws_err {c : Char} (hc : isMultispaceChar c = true)
    (input' : List Char) (f : Nat) (ctx : LuaContext)
    (hlen : 2 * (input'.length + 1) ≤ f) :
    ∃ e, parse_toplevel (f + 8) ctx (c :: input') = (ctx, .err e)
       ∧ parse_all (f + 9) ctx (c :: input') = (ctx, .err e) := by
  have hde : parse_data_extend (f + 7) (c :: input') =
      .err (mkErr (c :: input') "Tag") := by
    show parse_data_extend (Nat.succ (f + 6)) (c :: input') = _
    rw [parse_data_extend.eq_2,
      ptag_ws_err "data:extend(".data 'd' "ata:extend(".data rfl (by decide) hc input']
    rfl
  have hloc : parse_local (f + 7) (c :: input') = .err (mkErr (c :: input') "Tag") := by
    show parse_local (Nat.succ (f + 6)) (c :: input') = _
    rw [parse_local.eq_2,
      ptag_ws_err "local".data 'l' "ocal".data rfl (by decide) hc input']
    rfl
  have hnf : parse_named_function (f + 7) (c :: input') =
      .err (mkErr (c :: input') "Tag") := by
    show parse_named_function (Nat.succ (f + 6)) (c :: input') = _
    rw [parse_named_function.eq_2]
    simp only [parse_function,
      ptag_ws_err "function".data 'f' "unction".data rfl (by decide) hc input', pseq]
  obtain ⟨e4, h4⟩ := parse_stmt_ws_err hc input' (f + 2) (by omega)
  have h4' : parse_stmt (f + 7) (c :: input') = .err e4 := h4
  have htop : parse_toplevel (f + 8) ctx (c :: input') =
      (ctx, .err (addCtx (c :: input') "Alt" e4)) := by
    show parse_toplevel (Nat.succ (f + 7)) ctx (c :: input') = _
    rw [parse_toplevel.eq_2]
    simp only [hde, hloc, hnf, h4']
  refine ⟨addCtx (c :: input') "Alt" e4, htop, ?_⟩
  show parse_all (Nat.succ (f + 8)) ctx (c :: input') = _
  rw [parse_all.eq_2, htop]

/-- C6 counterexample.  `local x = 1` is a well-formed top-level form that
the driver parses to completion, but prefixing one space — leading
insignificant text — makes the full-file parse fail (with the accumulator
untouched): the driver performs no leading skip. -/
theorem c6_counterexample :
    parse_all 50 LuaContext.new "local x = 1".data =
      (⟨[("x", LuaExpr.Literal (LuaObject.Int 1))], [], []⟩, .ok [] ())
    ∧ (parse_all 50 LuaContext.new (' ' :: "local x = 1".data)).1 = LuaContext.new
    ∧ ((parse_all 50 LuaContext.new (' ' :: "local x = 1".data)).2).isErr = true :=
  ⟨rfl, rfl, rfl⟩

/-- C6 (amended).  Every grammar rule skips insignificant text only after
consuming its own lexemes, and the top-level driver performs no leading
skip at all: for every input, accumulator state and whitespace character
`c`, with enough fuel the top-level attempt on the `c`-prefixed input fails
with the accumulator unchanged and the full-file driver propagates that
same failure.  A well-formed sequence of top-level forms therefore parses
fully only when it starts at the very first byte: `local x = 1` parses
fully, while `' ' :: local x = 1` fails with the accumulator untouched, and
a leading `--` comment even panics (the comment's `--` is lexed as a
numeric run whose float fallback `unwrap`s). -/
theorem c6_no_leading_skip :
    (∀ (input : List Char) (c : Char) (ctx : LuaContext) (f : Nat),
      isMultispaceChar c = true → 2 * (input.length + 1) + 9 ≤ f →
      ∃ e, parse_toplevel f ctx (c :: input) = (ctx, .err e)
         ∧ parse_all (f + 1) ctx (c :: input) = (ctx, .err e))
    ∧ parse_all 50 LuaContext.new "local x = 1".data =
        (⟨[("x", LuaExpr.Literal (LuaObject.Int 1))], [], []⟩, .ok [] ())
    ∧ (parse_all 50 LuaContext.new (' ' :: "local x = 1".data)).1 = LuaContext.new
    ∧ ((parse_all 50 LuaContext.new (' ' :: "local x = 1".data)).2).isErr = true
    ∧ parse_all 50 LuaContext.new "-- c\nlocal x = 1".data =
        (LuaContext.new, PRes.panic) := by
  refine ⟨?_, rfl, rfl, rfl, rfl⟩
  intro input c ctx f hc hf
  obtain ⟨g, rfl⟩ : ∃ g, f = g + 8 := ⟨f - 8, by omega⟩
  obtain ⟨e, h1, h2⟩ := parse_toplevel_ws_err hc input g ctx (by omega)
  exact ⟨e, h1, h2⟩

/-- Witness for C6's amended theorem: the concrete whitespace character
`' '` before the well-formed form `local x = 1`, at fuel 49. -/
theorem c6_witness :
    ∃ e, parse_toplevel 49 LuaContext.new (' ' :: "local x = 1".data) =
          (LuaContext.new, .err e)
       ∧ parse_all 50 LuaContext.new (' ' :: "local x = 1".data) =
          (LuaContext.new, .err e) :=
  c6_no_leading_skip.1 "local x = 1".data ' ' LuaContext.new 49 rfl (by decide)

end Factorio
